import Mathlib

/-!
Shallow embedding of `src/sched.rs` (the `sched` module of the nix fork):
typed wrappers around Linux scheduling / namespace syscalls, the
`CloneFlags` bit-set and the fixed/dynamic `CpuSet` bitmask.

Modelling conventions:
* Machine integers are `Nat`/`Int`; kernel words are bit patterns on `Nat`
  (bitwise OR on two's complement equals bitwise OR on the pattern).
* A `libc_cpu_set` word block (`libc::cpu_set_t`, 128 bytes on Linux) is a
  `Nat` bitmask of `libc_cpu_set_bits_len = 1024` bits; the dynamic
  variant's `Vec<libc_cpu_set>` is a `List Nat` of such blocks.
* The raw syscalls and `sysconf` are external oracles: each wrapper takes
  the raw return value (`res : Int`) and the current errno value as
  parameters, exactly as `Errno::result` consumes them in the source.
* `CPU_SET`/`CPU_CLR`/`CPU_ISSET` index the word holding bit `field`; an
  access beyond the backing storage is out of bounds (a panic of the
  bit-indexing in the libc shim), modelled as `none`.
* Methods taking `&mut self` are state passing: they return the post-state
  together with the `Result`; `none` models the out-of-bounds crash.
-/

/-- Byte size of the native libc cpu set word type (cpu_set_t on Linux glibc). -/
def size_of_libc_cpu_set : Nat := 128

/-- Model of zeroed_libc_cpu_set: a zeroed libc cpu set word block. -/
def zeroed_libc_cpu_set : Nat := 0

/-- Model of libc_cpu_set_bits_len(): mem::size_of::<libc_cpu_set>() * 8. -/
def libc_cpu_set_bits_len : Nat := size_of_libc_cpu_set * 8

/-- Model of the errno values the module distinguishes: EINVAL is produced by
the CpuSet bounds checks, every other platform error code is opaque. -/
inductive Errno where
  | EINVAL
  | other (code : Nat)
deriving DecidableEq, Repr

/-- Model of nix's Errno::result: `-1` is the failure sentinel and yields the
current errno as the error, any other value is success. -/
def Errno.result (res : Int) (last : Errno) : Except Errno Int :=
  if res = -1 then Except.error last else Except.ok res

/-- Model of the `n as usize` cast on a c_long (64-bit two's complement; the
modulus literal is 2 to the 64th power). -/
def c_long_as_usize (n : Int) : Nat := (n % 18446744073709551616).toNat

/-- Model of `enum CpuSet { Sized(libc_cpu_set), Dynamic(Vec<libc_cpu_set>) }`. -/
inductive CpuSet where
  | Sized (value : Nat)
  | Dynamic (vec : List Nat)
deriving DecidableEq, Repr

namespace CpuSet

/-- The backing word blocks the libc_cpu_set accessor exposes to the CPU_*
macros and to the syscalls: one block for Sized, the vector for Dynamic. -/
def storage : CpuSet → List Nat
  | .Sized value => [value]
  | .Dynamic vec => vec

/-- Rebuild the variant from updated backing word blocks. -/
def withStorage : CpuSet → List Nat → CpuSet
  | .Sized _, blocks => .Sized (blocks.headD zeroed_libc_cpu_set)
  | .Dynamic _, blocks => .Dynamic blocks

/-- Whether `if let Self::Sized(_) = self` matches. -/
def isSized : CpuSet → Bool
  | .Sized _ => true
  | .Dynamic _ => false

/-- Model of CpuSet::n_bytes: size_of for Sized, vec.len() * size_of for Dynamic. -/
def n_bytes (s : CpuSet) : Nat :=
  match s with
  | .Sized _ => size_of_libc_cpu_set
  | .Dynamic vec => vec.length * size_of_libc_cpu_set

/-- Model of CpuSet::n_bits: the byte count of the active variant times 8. -/
def n_bits (s : CpuSet) : Nat :=
  (match s with
   | .Sized _ => size_of_libc_cpu_set
   | .Dynamic vec => vec.length * size_of_libc_cpu_set) * 8

/-- Model of CpuSet::new(): Self::Sized(zeroed_libc_cpu_set()). -/
def new : CpuSet := .Sized zeroed_libc_cpu_set

/-- The DEFAULT_ALLOC_SIZE constant of CpuSet::new_dynamic. -/
def DEFAULT_ALLOC_SIZE : Nat := 4

/-- Model of CpuSet::new_dynamic(): a dynamic set of 4 zeroed word blocks. -/
def new_dynamic : CpuSet :=
  .Dynamic (List.replicate DEFAULT_ALLOC_SIZE zeroed_libc_cpu_set)

end CpuSet

/-- Model of libc::CPU_ISSET on the backing blocks: read the bit of word
`field / bits_len` at offset `field % bits_len`; out of bounds is none. -/
def CPU_ISSET (field : Nat) (blocks : List Nat) : Option Bool :=
  match blocks.get? (field / libc_cpu_set_bits_len) with
  | some b => some (b.testBit (field % libc_cpu_set_bits_len))
  | none => none

/-- Model of libc::CPU_SET on the backing blocks: OR the bit of word
`field / bits_len` at offset `field % bits_len`; out of bounds is none. -/
def CPU_SET (field : Nat) (blocks : List Nat) : Option (List Nat) :=
  let idx := field / libc_cpu_set_bits_len
  match blocks.get? idx with
  | some b =>
      some (blocks.set idx (b ||| 2 ^ (field % libc_cpu_set_bits_len)))
  | none => none

/-- Model of libc::CPU_CLR on the backing blocks: clear the bit of word
`field / bits_len` at offset `field % bits_len`; out of bounds is none. -/
def CPU_CLR (field : Nat) (blocks : List Nat) : Option (List Nat) :=
  let idx := field / libc_cpu_set_bits_len
  match blocks.get? idx with
  | some b =>
      some (blocks.set idx (Nat.ldiff b (2 ^ (field % libc_cpu_set_bits_len))))
  | none => none

/-- The expected_vec_len computed inside CpuSet::set and CpuSet::unset:
(field + (cpu_set_bits_len - 1)) / cpu_set_bits_len. -/
def expected_vec_len (field : Nat) : Nat :=
  (field + (libc_cpu_set_bits_len - 1)) / libc_cpu_set_bits_len

namespace CpuSet

/-- The growth step of CpuSet::set / CpuSet::unset (the `if let Self::Dynamic`
block, duplicated verbatim in both methods): when the vector is shorter than
expected_vec_len, resize it with zeroed blocks; Sized is untouched. -/
def grow (s : CpuSet) (field : Nat) : CpuSet :=
  match s with
  | .Dynamic vec =>
      let vec_len := vec.length
      let e := expected_vec_len field
      if vec_len < e then
        .Dynamic (vec ++ List.replicate (e - vec_len) zeroed_libc_cpu_set)
      else
        .Dynamic vec
  | s => s

/-- Model of CpuSet::is_set: a Sized set rejects field >= n_bits with EINVAL,
then CPU_ISSET reads the bit from the backing storage (&self: the state is
returned unchanged). -/
def is_set (s : CpuSet) (field : Nat) : Option (CpuSet × Except Errno Bool) :=
  if s.isSized = true ∧ s.n_bits ≤ field then
    some (s, Except.error Errno.EINVAL)
  else
    match CPU_ISSET field s.storage with
    | some b => some (s, Except.ok b)
    | none => none

/-- Model of CpuSet::set: a Sized set rejects field >= n_bits with EINVAL; a
Dynamic set grows to expected_vec_len words; then CPU_SET writes the bit. -/
def set (s : CpuSet) (field : Nat) : Option (CpuSet × Except Errno Unit) :=
  if s.isSized = true ∧ s.n_bits ≤ field then
    some (s, Except.error Errno.EINVAL)
  else
    match CPU_SET field (s.grow field).storage with
    | some blocks => some ((s.grow field).withStorage blocks, Except.ok ())
    | none => none

/-- Model of CpuSet::unset: a Sized set rejects field >= n_bits with EINVAL; a
Dynamic set grows to expected_vec_len words; then CPU_CLR clears the bit. -/
def unset (s : CpuSet) (field : Nat) : Option (CpuSet × Except Errno Unit) :=
  if s.isSized = true ∧ s.n_bits ≤ field then
    some (s, Except.error Errno.EINVAL)
  else
    match CPU_CLR field (s.grow field).storage with
    | some blocks => some ((s.grow field).withStorage blocks, Except.ok ())
    | none => none

end CpuSet

/-- Model of Pid (crate::unistd::Pid), an opaque process or thread id. -/
structure Pid where
  raw : Int
deriving DecidableEq, Repr

/-- Model of Pid::from_raw. -/
def Pid.from_raw (r : Int) : Pid := ⟨r⟩

/-- Model of the CloneFlags bit-set: the raw c_int bit pattern. -/
structure CloneFlags where
  bits : Nat
deriving DecidableEq, Repr

namespace CloneFlags

/-- Linux CLONE_VM flag bit. -/
def CLONE_VM : CloneFlags := ⟨0x00000100⟩

/-- Linux CLONE_FS flag bit. -/
def CLONE_FS : CloneFlags := ⟨0x00000200⟩

/-- Linux CLONE_FILES flag bit. -/
def CLONE_FILES : CloneFlags := ⟨0x00000400⟩

/-- Linux CLONE_SIGHAND flag bit. -/
def CLONE_SIGHAND : CloneFlags := ⟨0x00000800⟩

/-- Linux CLONE_PTRACE flag bit. -/
def CLONE_PTRACE : CloneFlags := ⟨0x00002000⟩

/-- Linux CLONE_VFORK flag bit. -/
def CLONE_VFORK : CloneFlags := ⟨0x00004000⟩

/-- Linux CLONE_PARENT flag bit. -/
def CLONE_PARENT : CloneFlags := ⟨0x00008000⟩

/-- Linux CLONE_THREAD flag bit. -/
def CLONE_THREAD : CloneFlags := ⟨0x00010000⟩

/-- Linux CLONE_NEWNS flag bit. -/
def CLONE_NEWNS : CloneFlags := ⟨0x00020000⟩

/-- Linux CLONE_SYSVSEM flag bit. -/
def CLONE_SYSVSEM : CloneFlags := ⟨0x00040000⟩

/-- Linux CLONE_DETACHED flag bit. -/
def CLONE_DETACHED : CloneFlags := ⟨0x00400000⟩

/-- Linux CLONE_UNTRACED flag bit. -/
def CLONE_UNTRACED : CloneFlags := ⟨0x00800000⟩

/-- Linux CLONE_NEWCGROUP flag bit. -/
def CLONE_NEWCGROUP : CloneFlags := ⟨0x02000000⟩

/-- Linux CLONE_NEWUTS flag bit. -/
def CLONE_NEWUTS : CloneFlags := ⟨0x04000000⟩

/-- Linux CLONE_NEWIPC flag bit. -/
def CLONE_NEWIPC : CloneFlags := ⟨0x08000000⟩

/-- Linux CLONE_NEWUSER flag bit. -/
def CLONE_NEWUSER : CloneFlags := ⟨0x10000000⟩

/-- Linux CLONE_NEWPID flag bit. -/
def CLONE_NEWPID : CloneFlags := ⟨0x20000000⟩

/-- Linux CLONE_NEWNET flag bit. -/
def CLONE_NEWNET : CloneFlags := ⟨0x40000000⟩

/-- Linux CLONE_IO flag bit. -/
def CLONE_IO : CloneFlags := ⟨0x80000000⟩

end CloneFlags

/-- The arguments clone hands to libc::clone: the aligned child stack top and
the combined flag word. -/
structure CloneKernelArgs where
  child_stack : Nat
  combined : Nat
deriving DecidableEq, Repr

/-- Model of clone: computes combined = flags.bits() | signal.unwrap_or(0) and
the aligned stack top ptr_aligned = ptr - ptr % 16 with ptr = base + len, then
maps the raw syscall result through Errno::result and Pid::from_raw. The raw
result and the current errno are oracle parameters. -/
def clone (stackBase stackLen : Nat) (flags : CloneFlags) (signal : Option Nat)
    (res : Int) (last : Errno) : CloneKernelArgs × Except Errno Pid :=
  let combined := flags.bits ||| signal.getD 0
  let ptr := stackBase + stackLen
  let ptr_aligned := ptr - ptr % 16
  (⟨ptr_aligned, combined⟩, (Errno.result res last).map Pid.from_raw)

/-- Model of unshare: libc::unshare(flags.bits()) through Errno::result. -/
def unshare (flags : CloneFlags) (res : Int) (last : Errno) :
    Except Errno Unit :=
  (Errno.result res last).map (fun _ => ())

/-- Model of setns: libc::setns(fd, nstype.bits()) through Errno::result. -/
def setns (fd : Int) (nstype : CloneFlags) (res : Int) (last : Errno) :
    Except Errno Unit :=
  (Errno.result res last).map (fun _ => ())

/-- The arguments a sched affinity wrapper hands to the kernel: the pid and the
cpusetsize byte count describing the buffer. -/
structure AffinityKernelArgs where
  pid : Int
  cpusetsize : Nat
deriving DecidableEq, Repr

/-- Model of sched_setaffinity: passes pid and cpuset.n_bytes() to the kernel
and maps the raw result through Errno::result. -/
def sched_setaffinity (pid : Pid) (cpuset : CpuSet) (res : Int) (last : Errno) :
    AffinityKernelArgs × Except Errno Unit :=
  let cpuset_n_bytes := cpuset.n_bytes
  (⟨pid.raw, cpuset_n_bytes⟩, (Errno.result res last).map (fun _ => ()))

/-- The buffer selection of sched_getaffinity (the match on the sysconf value
inlined in the source): with Some(n), a count above libc_cpu_set_bits_len picks
CpuSet::new_dynamic and otherwise CpuSet::new; with None, CpuSet::new_dynamic. -/
def sched_getaffinity_cpuset (n_cores_available : Option Int) : CpuSet :=
  match n_cores_available with
  | some n =>
      let n := c_long_as_usize n
      if libc_cpu_set_bits_len < n then CpuSet.new_dynamic else CpuSet.new
  | none => CpuSet.new_dynamic

/-- Model of sched_getaffinity: the `?` on sysconf(_NPROCESSORS_ONLN)
propagates its error without touching the kernel (no arguments built); on
success the selected cpuset's byte size is passed to the kernel and
Errno::result(res).and(Ok(cpuset)) produces the result. The sysconf outcome,
the raw syscall result and the current errno are oracle parameters. -/
def sched_getaffinity (pid : Pid) (sysconfRes : Except Errno (Option Int))
    (res : Int) (last : Errno) :
    Option AffinityKernelArgs × Except Errno CpuSet :=
  match sysconfRes with
  | Except.error e => (none, Except.error e)
  | Except.ok n_cores_available =>
      let cpuset := sched_getaffinity_cpuset n_cores_available
      (some ⟨pid.raw, cpuset.n_bytes⟩,
        match Errno.result res last with
        | Except.error e => Except.error e
        | Except.ok _ => Except.ok cpuset)

/-- Model of sched_getcpu: Errno::result(res).map(as usize). -/
def sched_getcpu (res : Int) (last : Errno) : Except Errno Nat :=
  (Errno.result res last).map (fun i => c_long_as_usize i)

/-- Model of sched_yield: Errno::result(libc::sched_yield()).map(drop). -/
def sched_yield (res : Int) (last : Errno) : Except Errno Unit :=
  (Errno.result res last).map (fun _ => ())

/-! Helper lemmas shared by the claim theorems. -/

/-- On a Sized set, an in-range is_set reads the bit of the single word. -/
theorem sized_is_set_lt (value field : Nat) (h : field < libc_cpu_set_bits_len) :
    (CpuSet.Sized value).is_set field
      = some (CpuSet.Sized value, Except.ok (value.testBit field)) := by
  have h1 : field / libc_cpu_set_bits_len = 0 := Nat.div_eq_of_lt h
  have h2 : field % libc_cpu_set_bits_len = field := Nat.mod_eq_of_lt h
  have h3 : ¬ CpuSet.n_bits (CpuSet.Sized value) ≤ field := by
    simp only [CpuSet.n_bits, libc_cpu_set_bits_len] at *
    omega
  simp [CpuSet.is_set, CpuSet.isSized, CpuSet.storage, CPU_ISSET, h1, h2, h3]

/-- On a Sized set, an in-range set ORs the bit into the single word. -/
theorem sized_set_lt (value field : Nat) (h : field < libc_cpu_set_bits_len) :
    (CpuSet.Sized value).set field
      = some (CpuSet.Sized (value ||| 2 ^ field), Except.ok ()) := by
  have h1 : field / libc_cpu_set_bits_len = 0 := Nat.div_eq_of_lt h
  have h2 : field % libc_cpu_set_bits_len = field := Nat.mod_eq_of_lt h
  have h3 : ¬ CpuSet.n_bits (CpuSet.Sized value) ≤ field := by
    simp only [CpuSet.n_bits, libc_cpu_set_bits_len] at *
    omega
  simp [CpuSet.set, CpuSet.isSized, CpuSet.grow, CpuSet.storage,
    CpuSet.withStorage, CPU_SET, zeroed_libc_cpu_set, h1, h2, h3]

/-- On a Sized set, an in-range unset clears the bit of the single word. -/
theorem sized_unset_lt (value field : Nat) (h : field < libc_cpu_set_bits_len) :
    (CpuSet.Sized value).unset field
      = some (CpuSet.Sized (Nat.ldiff value (2 ^ field)), Except.ok ()) := by
  have h1 : field / libc_cpu_set_bits_len = 0 := Nat.div_eq_of_lt h
  have h2 : field % libc_cpu_set_bits_len = field := Nat.mod_eq_of_lt h
  have h3 : ¬ CpuSet.n_bits (CpuSet.Sized value) ≤ field := by
    simp only [CpuSet.n_bits, libc_cpu_set_bits_len] at *
    omega
  simp [CpuSet.unset, CpuSet.isSized, CpuSet.grow, CpuSet.storage,
    CpuSet.withStorage, CPU_CLR, zeroed_libc_cpu_set, h1, h2, h3]

/-- When the vector is shorter than expected_vec_len, grow pads it with zeroed
blocks up to exactly expected_vec_len words. -/
theorem grow_of_lt (vec : List Nat) (field : Nat)
    (hlt : vec.length < expected_vec_len field) :
    CpuSet.grow (CpuSet.Dynamic vec) field = CpuSet.Dynamic
      (vec ++ List.replicate (expected_vec_len field - vec.length)
        zeroed_libc_cpu_set) := by
  simp [CpuSet.grow, hlt]

/-- CPU_SET preserves the number of backing word blocks. -/
theorem CPU_SET_length (field : Nat) (blocks out : List Nat)
    (h : CPU_SET field blocks = some out) : out.length = blocks.length := by
  simp only [CPU_SET] at h
  rcases hc : blocks.get? (field / libc_cpu_set_bits_len) with _ | b <;>
      rw [hc] at h
  · cases h
  · cases h
    simp

/-- CPU_CLR preserves the number of backing word blocks. -/
theorem CPU_CLR_length (field : Nat) (blocks out : List Nat)
    (h : CPU_CLR field blocks = some out) : out.length = blocks.length := by
  simp only [CPU_CLR] at h
  rcases hc : blocks.get? (field / libc_cpu_set_bits_len) with _ | b <;>
      rw [hc] at h
  · cases h
  · cases h
    simp

/-! Claim theorems. -/

/-- C1: the claim says that on a dynamic CpuSet, set(field) always succeeds and
grows the storage to at least field + 1 bits, after which is_set(field) is
true. The code computes expected_vec_len as the ceiling of field divided by the
word bit size, which fails to cover bit `field` itself whenever field is a
multiple of the 1024-bit word size: on a fresh new_dynamic set (4 words, 4096
bits), set 4096 performs no growth (expected_vec_len 4096 = 4) and the
subsequent CPU_SET indexes word 4 of a 4-word buffer, out of bounds, instead
of returning Ok with storage covering 4097 bits. -/
theorem c1_dynamic_set_growth_bug :
    CpuSet.n_bits CpuSet.new_dynamic = 4096 ∧
    expected_vec_len 4096 = 4 ∧
    CpuSet.grow CpuSet.new_dynamic 4096 = CpuSet.new_dynamic ∧
    CpuSet.set CpuSet.new_dynamic 4096 = none :=
  ⟨rfl, rfl, rfl, rfl⟩

/-- C2: on a fixed (Sized) CpuSet, every field at or beyond the bit capacity
makes is_set, set and unset return the EINVAL error with the set unchanged. -/
theorem c2_sized_out_of_range_einval (value field : Nat)
    (h : CpuSet.n_bits (CpuSet.Sized value) ≤ field) :
    (CpuSet.Sized value).is_set field
        = some (CpuSet.Sized value, Except.error Errno.EINVAL) ∧
    (CpuSet.Sized value).set field
        = some (CpuSet.Sized value, Except.error Errno.EINVAL) ∧
    (CpuSet.Sized value).unset field
        = some (CpuSet.Sized value, Except.error Errno.EINVAL) := by
  refine ⟨?_, ?_, ?_⟩ <;>
    simp [CpuSet.is_set, CpuSet.set, CpuSet.unset, CpuSet.isSized, h]

/-- Witness for C2 at value 0 and field 1024, the bit capacity of a Sized set. -/
theorem c2_sized_out_of_range_einval_witness :
    (CpuSet.Sized 0).is_set 1024
        = some (CpuSet.Sized 0, Except.error Errno.EINVAL) ∧
    (CpuSet.Sized 0).set 1024
        = some (CpuSet.Sized 0, Except.error Errno.EINVAL) ∧
    (CpuSet.Sized 0).unset 1024
        = some (CpuSet.Sized 0, Except.error Errno.EINVAL) :=
  c2_sized_out_of_range_einval 0 1024 (by decide)

/-- C3: on a freshly created fixed CpuSet, every in-range field reads false,
reads true immediately after set(field), and reads false again after a
subsequent unset(field). -/
theorem c3_fresh_set_unset_roundtrip (field : Nat)
    (h : field < CpuSet.n_bits CpuSet.new) :
    CpuSet.new.is_set field = some (CpuSet.new, Except.ok false) ∧
    ∃ s1, CpuSet.new.set field = some (s1, Except.ok ()) ∧
      s1.is_set field = some (s1, Except.ok true) ∧
      ∃ s2, s1.unset field = some (s2, Except.ok ()) ∧
        s2.is_set field = some (s2, Except.ok false) := by
  have hf : field < libc_cpu_set_bits_len := by
    simp only [CpuSet.new, CpuSet.n_bits, libc_cpu_set_bits_len] at *
    omega
  refine ⟨?_, _, sized_set_lt 0 field hf, ?_, _, sized_unset_lt _ field hf, ?_⟩
  · rw [show CpuSet.new = CpuSet.Sized 0 from rfl, sized_is_set_lt 0 field hf]
    simp [Nat.zero_testBit]
  · rw [sized_is_set_lt _ field hf]
    simp [Nat.testBit_lor, Nat.testBit_two_pow_self, Nat.zero_testBit]
  · rw [sized_is_set_lt _ field hf]
    simp [Nat.testBit_ldiff, Nat.testBit_two_pow_self]

/-- Witness for C3 at field 3 on the fresh fixed set. -/
theorem c3_fresh_set_unset_roundtrip_witness :
    CpuSet.new.is_set 3 = some (CpuSet.new, Except.ok false) ∧
    ∃ s1, CpuSet.new.set 3 = some (s1, Except.ok ()) ∧
      s1.is_set 3 = some (s1, Except.ok true) ∧
      ∃ s2, s1.unset 3 = some (s2, Except.ok ()) ∧
        s2.is_set 3 = some (s2, Except.ok false) :=
  c3_fresh_set_unset_roundtrip 3 (by decide)

/-- Counterexample for C4: with an online-processor count of 4097 (above the
1024-bit fixed capacity), sched_getaffinity picks the default dynamic set of 4
words, whose 4096-bit capacity is strictly below the reported count, refuting
"a dynamic CpuSet whose bit capacity is at least that count". -/
theorem c4_counterexample :
    sched_getaffinity_cpuset (some 4097) = CpuSet.new_dynamic ∧
    libc_cpu_set_bits_len < 4097 ∧
    CpuSet.n_bits (sched_getaffinity_cpuset (some 4097)) < 4097 :=
  ⟨rfl, by decide, by decide⟩

/-- C4 (amended): sched_getaffinity first queries the online-processor count;
when the count exceeds the fixed 1024-bit capacity it allocates the default
dynamic CpuSet of 4 words (4096 bits), whose capacity covers the count only
when the count is at most 4096; otherwise it uses the fixed representation; it
issues the query syscall with the selected buffer's byte size and returns the
populated set on success. -/
theorem c4_getaffinity_buffer_selection (pid : Pid) (n : Nat) (res : Int)
    (last : Errno) (hn : n < 18446744073709551616) :
    (libc_cpu_set_bits_len < n →
        sched_getaffinity_cpuset (some (n : Int)) = CpuSet.new_dynamic) ∧
    (n ≤ libc_cpu_set_bits_len →
        sched_getaffinity_cpuset (some (n : Int)) = CpuSet.new) ∧
    (libc_cpu_set_bits_len < n → n ≤ CpuSet.n_bits CpuSet.new_dynamic →
        n ≤ CpuSet.n_bits (sched_getaffinity_cpuset (some (n : Int)))) ∧
    (sched_getaffinity pid (Except.ok (some (n : Int))) res last).1
        = some ⟨pid.raw, (sched_getaffinity_cpuset (some (n : Int))).n_bytes⟩ ∧
    (res ≠ -1 →
        (sched_getaffinity pid (Except.ok (some (n : Int))) res last).2
          = Except.ok (sched_getaffinity_cpuset (some (n : Int)))) := by
  have hcast : c_long_as_usize (n : Int) = n := by
    unfold c_long_as_usize
    omega
  refine ⟨fun hlt => ?_, fun hle => ?_, fun hlt hcap => ?_, rfl, fun hok => ?_⟩
  · simp [sched_getaffinity_cpuset, hcast, hlt]
  · simp [sched_getaffinity_cpuset, hcast, Nat.not_lt.mpr hle]
  · simp [sched_getaffinity_cpuset, hcast, hlt]
    exact hcap
  · simp [sched_getaffinity, Errno.result, hok]

/-- Witness for C4 (amended) at count 2048, which fits the default dynamic
capacity, with a successful syscall result. -/
theorem c4_getaffinity_buffer_selection_witness :
    (libc_cpu_set_bits_len < 2048 →
        sched_getaffinity_cpuset (some (2048 : Int)) = CpuSet.new_dynamic) ∧
    (2048 ≤ libc_cpu_set_bits_len →
        sched_getaffinity_cpuset (some (2048 : Int)) = CpuSet.new) ∧
    (libc_cpu_set_bits_len < 2048 → 2048 ≤ CpuSet.n_bits CpuSet.new_dynamic →
        2048 ≤ CpuSet.n_bits (sched_getaffinity_cpuset (some (2048 : Int)))) ∧
    (sched_getaffinity ⟨0⟩ (Except.ok (some (2048 : Int))) 0 (Errno.other 0)).1
        = some ⟨(0 : Int),
            (sched_getaffinity_cpuset (some (2048 : Int))).n_bytes⟩ ∧
    ((0 : Int) ≠ -1 →
        (sched_getaffinity ⟨0⟩ (Except.ok (some (2048 : Int))) 0
            (Errno.other 0)).2
          = Except.ok (sched_getaffinity_cpuset (some (2048 : Int)))) :=
  c4_getaffinity_buffer_selection ⟨0⟩ 2048 0 (Errno.other 0) (by decide)

/-- C5: the combined flag word clone passes to the kernel is the bitwise OR of
the flags' bit pattern and the termination signal, an absent signal
contributing 0, so with no signal the word is exactly the flags' bits. -/
theorem c5_clone_combined_word (stackBase stackLen : Nat) (flags : CloneFlags)
    (signal : Option Nat) (res : Int) (last : Errno) :
    (clone stackBase stackLen flags signal res last).1.combined
        = flags.bits ||| signal.getD 0 ∧
    (clone stackBase stackLen flags none res last).1.combined
        = flags.bits :=
  ⟨rfl, by simp [clone]⟩

/-- Counterexample for C6: with a 0-byte stack buffer at base address 8, the
aligned child-stack address clone computes is 0, strictly below the buffer's
base, refuting "it is not below the buffer's base address" for every buffer. -/
theorem c6_counterexample :
    (clone 8 0 ⟨0⟩ none 0 (Errno.other 0)).1.child_stack < 8 := by decide

/-- C6 (amended): the child-stack address clone passes to the kernel is
divisible by 16 and is the greatest 16-byte-aligned address at most
base + len; it is not below the buffer's base address whenever the buffer is
at least 15 bytes long. -/
theorem c6_clone_stack_alignment (stackBase stackLen : Nat)
    (flags : CloneFlags) (signal : Option Nat) (res : Int) (last : Errno) :
    (clone stackBase stackLen flags signal res last).1.child_stack % 16 = 0 ∧
    (clone stackBase stackLen flags signal res last).1.child_stack
        ≤ stackBase + stackLen ∧
    (∀ b, b % 16 = 0 → b ≤ stackBase + stackLen →
        b ≤ (clone stackBase stackLen flags signal res last).1.child_stack) ∧
    (15 ≤ stackLen →
        stackBase
          ≤ (clone stackBase stackLen flags signal res last).1.child_stack) := by
  have hc : (clone stackBase stackLen flags signal res last).1.child_stack
      = (stackBase + stackLen) - (stackBase + stackLen) % 16 := rfl
  rw [hc]
  refine ⟨by omega, by omega, fun b hb hble => by omega, fun hlen => by omega⟩

/-- Witness for C6 (amended): a 64-byte buffer at base 32; the aligned top is
96, which 80 (a 16-aligned address within the buffer) does not exceed, and
which is at or above the base. -/
theorem c6_clone_stack_alignment_witness :
    (clone 32 64 ⟨0⟩ none 0 (Errno.other 0)).1.child_stack % 16 = 0 ∧
    (80 : Nat) ≤ (clone 32 64 ⟨0⟩ none 0 (Errno.other 0)).1.child_stack ∧
    (32 : Nat) ≤ (clone 32 64 ⟨0⟩ none 0 (Errno.other 0)).1.child_stack :=
  ⟨(c6_clone_stack_alignment 32 64 ⟨0⟩ none 0 (Errno.other 0)).1,
   (c6_clone_stack_alignment 32 64 ⟨0⟩ none 0 (Errno.other 0)).2.2.1 80
     (by decide) (by decide),
   (c6_clone_stack_alignment 32 64 ⟨0⟩ none 0 (Errno.other 0)).2.2.2
     (by decide)⟩

/-- C7: sched_setaffinity passes the set's exact byte size to the kernel: the
word byte size for the Sized variant and word count times word byte size for
the Dynamic variant. -/
theorem c7_setaffinity_exact_byte_len (pid : Pid) (cpuset : CpuSet)
    (res : Int) (last : Errno) :
    (sched_setaffinity pid cpuset res last).1.cpusetsize = cpuset.n_bytes ∧
    (∀ value, CpuSet.n_bytes (CpuSet.Sized value) = size_of_libc_cpu_set) ∧
    ∀ vec, CpuSet.n_bytes (CpuSet.Dynamic vec)
        = vec.length * size_of_libc_cpu_set :=
  ⟨rfl, fun _ => rfl, fun _ => rfl⟩

/-- C8: every syscall wrapper returns the OS error carrying the current errno
exactly when the raw result is the -1 sentinel and Ok otherwise, with no
retry, swallowing or downgrade; sched_getaffinity additionally propagates a
sysconf error unchanged without touching the kernel. -/
theorem c8_wrappers_error_iff_sentinel (stackBase stackLen : Nat)
    (flags : CloneFlags) (signal : Option Nat) (fd : Int) (pid : Pid)
    (cpuset : CpuSet) (n_cores : Option Int) (res : Int) (last : Errno) :
    ((clone stackBase stackLen flags signal res last).2
        = if res = -1 then Except.error last
          else Except.ok (Pid.from_raw res)) ∧
    (unshare flags res last
        = if res = -1 then Except.error last else Except.ok ()) ∧
    (setns fd flags res last
        = if res = -1 then Except.error last else Except.ok ()) ∧
    ((sched_setaffinity pid cpuset res last).2
        = if res = -1 then Except.error last else Except.ok ()) ∧
    ((sched_getaffinity pid (Except.ok n_cores) res last).2
        = if res = -1 then Except.error last
          else Except.ok (sched_getaffinity_cpuset n_cores)) ∧
    (∀ e, sched_getaffinity pid (Except.error e) res last
        = (none, Except.error e)) ∧
    (sched_getcpu res last
        = if res = -1 then Except.error last
          else Except.ok (c_long_as_usize res)) ∧
    (sched_yield res last
        = if res = -1 then Except.error last else Except.ok ()) := by
  by_cases h : res = -1 <;>
    simp [clone, unshare, setns, sched_setaffinity, sched_getaffinity,
      sched_getcpu, sched_yield, Errno.result, Except.map, h]

/-- C9: is_set never mutates the CpuSet (the returned state is always the
input state, and querying a dynamic set beyond its storage yields no grown
state at all), unlike set and unset, which grow a too-short dynamic vector to
exactly expected_vec_len words. -/
theorem c9_is_set_pure_set_unset_grow :
    (∀ s field out, CpuSet.is_set s field = some out → out.1 = s) ∧
    (∀ vec field, CpuSet.n_bits (CpuSet.Dynamic vec) ≤ field →
        CpuSet.is_set (CpuSet.Dynamic vec) field = none) ∧
    (∀ vec field s u, vec.length < expected_vec_len field →
        CpuSet.set (CpuSet.Dynamic vec) field = some (s, u) →
        (CpuSet.storage s).length = expected_vec_len field) ∧
    (∀ vec field s u, vec.length < expected_vec_len field →
        CpuSet.unset (CpuSet.Dynamic vec) field = some (s, u) →
        (CpuSet.storage s).length = expected_vec_len field) := by
  refine ⟨fun s field out h => ?_, fun vec field h => ?_,
    fun vec field s u hlt heq => ?_, fun vec field s u hlt heq => ?_⟩
  · unfold CpuSet.is_set at h
    split at h
    · cases h; rfl
    · rcases hc : CPU_ISSET field s.storage with _ | b <;> rw [hc] at h
      · cases h
      · cases h; rfl
  · have hlen : vec.length ≤ field / libc_cpu_set_bits_len := by
      rw [Nat.le_div_iff_mul_le (by decide : 0 < libc_cpu_set_bits_len)]
      simp only [CpuSet.n_bits, libc_cpu_set_bits_len,
        size_of_libc_cpu_set] at h ⊢
      omega
    have hget : (CpuSet.storage (CpuSet.Dynamic vec)).get?
        (field / libc_cpu_set_bits_len) = none := by
      rw [List.get?_eq_none]
      simpa [CpuSet.storage] using hlen
    unfold CpuSet.is_set
    rw [if_neg (by simp [CpuSet.isSized])]
    unfold CPU_ISSET
    rw [hget]
  · rw [CpuSet.set, if_neg (by simp [CpuSet.isSized]),
      grow_of_lt vec field hlt] at heq
    rcases hc : CPU_SET field (CpuSet.storage (CpuSet.Dynamic
        (vec ++ List.replicate (expected_vec_len field - vec.length)
          zeroed_libc_cpu_set))) with _ | blocks <;>
      rw [hc] at heq
    · cases heq
    · cases heq
      have := CPU_SET_length _ _ _ hc
      simp only [CpuSet.storage, CpuSet.withStorage, List.length_append,
        List.length_replicate] at this ⊢
      omega
  · rw [CpuSet.unset, if_neg (by simp [CpuSet.isSized]),
      grow_of_lt vec field hlt] at heq
    rcases hc : CPU_CLR field (CpuSet.storage (CpuSet.Dynamic
        (vec ++ List.replicate (expected_vec_len field - vec.length)
          zeroed_libc_cpu_set))) with _ | blocks <;>
      rw [hc] at heq
    · cases heq
    · cases heq
      have := CPU_CLR_length _ _ _ hc
      simp only [CpuSet.storage, CpuSet.withStorage, List.length_append,
        List.length_replicate] at this ⊢
      omega

/-- Witness for C9: a concrete non-mutating query on a Sized set, a dynamic
query beyond storage, and a growing set and unset on an empty dynamic set. -/
theorem c9_is_set_pure_set_unset_grow_witness :
    ((CpuSet.Sized 5, (Except.ok true : Except Errno Bool)).1
        = CpuSet.Sized 5) ∧
    CpuSet.is_set (CpuSet.Dynamic [0]) 1024 = none ∧
    (CpuSet.storage (CpuSet.Dynamic
        [0 ||| 2 ^ (1 % libc_cpu_set_bits_len)])).length
      = expected_vec_len 1 ∧
    (CpuSet.storage (CpuSet.Dynamic
        [Nat.ldiff 0 (2 ^ (1 % libc_cpu_set_bits_len))])).length
      = expected_vec_len 1 :=
  ⟨c9_is_set_pure_set_unset_grow.1 (CpuSet.Sized 5) 2
      (CpuSet.Sized 5, Except.ok true) (by rfl),
   c9_is_set_pure_set_unset_grow.2.1 [0] 1024 (by decide),
   c9_is_set_pure_set_unset_grow.2.2.1 [] 1
      (CpuSet.Dynamic [0 ||| 2 ^ (1 % libc_cpu_set_bits_len)])
      (Except.ok ()) (by decide) (by rfl),
   c9_is_set_pure_set_unset_grow.2.2.2 [] 1
      (CpuSet.Dynamic [Nat.ldiff 0 (2 ^ (1 % libc_cpu_set_bits_len))])
      (Except.ok ()) (by decide) (by rfl)⟩

/-- C10: when sysconf succeeds but reports the processor count unavailable,
sched_getaffinity does not error: it falls back to the dynamic CpuSet, issues
the syscall with that buffer's byte size, and fails only on the syscall
sentinel; a sysconf failure itself is propagated unchanged. -/
theorem c10_getaffinity_none_fallback (pid : Pid) (res : Int) (last : Errno) :
    (sched_getaffinity pid (Except.ok none) res last).1
        = some ⟨pid.raw, CpuSet.n_bytes CpuSet.new_dynamic⟩ ∧
    ((sched_getaffinity pid (Except.ok none) res last).2
        = if res = -1 then Except.error last
          else Except.ok CpuSet.new_dynamic) ∧
    ∀ e, sched_getaffinity pid (Except.error e) res last
        = (none, Except.error e) := by
  refine ⟨rfl, ?_, fun e => rfl⟩
  by_cases h : res = -1 <;>
    simp [sched_getaffinity, sched_getaffinity_cpuset, Errno.result, h]
